import Mathlib

/-!
Shallow embedding of the aggregation/analysis core of
src/K-Movie_Ecosystem_Explorer.py, together with theorems checking the
specification claims against it.

Conventions of the embedding:
* Python int is modelled as Lean Int, Python float results as Lean Rat
  (every concrete value appearing in the development is exactly
  representable in IEEE double, so the rational model coincides with the
  float computation there).
* Python dicts built by the grouping passes are modelled as
  insertion-ordered association lists, matching the insertion-order
  iteration of Python 3.7+ dicts.
* Uncaught Python exceptions (ValueError from int(), IndexError from
  list indexing) are modelled with Except.
* pandas DataFrame.sort_values is modelled with mergeSort.  The source
  leaves the sort kind at the pandas default (quicksort), whose order
  among equal keys is unspecified; no theorem below depends on the
  relative order of equal keys.  Python sorted() is documented stable,
  which mergeSort models faithfully.
-/

namespace KMovie

/-- A calendar date (proleptic Gregorian), as produced by datetime.date. -/
structure Date where
  year : Nat
  month : Nat
  day : Nat
deriving Repr, DecidableEq

/-- Gregorian leap-year rule, as used by datetime. -/
def isLeap (y : Nat) : Bool :=
  (y % 4 == 0 && y % 100 != 0) || (y % 400 == 0)

/-- Length of month m in year y (datetime calendar). -/
def daysInMonth (y m : Nat) : Nat :=
  if m = 2 then (if isLeap y then 29 else 28)
  else if m = 4 ∨ m = 6 ∨ m = 9 ∨ m = 11 then 30
  else 31

/-- Days in year y that precede the first day of month m. -/
def daysBeforeMonth (y m : Nat) : Nat :=
  ((List.range (m - 1)).map (fun i => daysInMonth y (i + 1))).sum

/-- datetime.date.toordinal: day number in the proleptic Gregorian calendar
with 0001-01-01 mapped to 1.  Subtraction of two dates in the source
(line 374) is the difference of these ordinals. -/
def toOrdinal (d : Date) : Nat :=
  365 * (d.year - 1) + (d.year - 1) / 4 - (d.year - 1) / 100 + (d.year - 1) / 400
    + daysBeforeMonth d.year d.month + d.day

/-- Numeric value of a decimal digit character. -/
def digitVal (c : Char) : Nat := c.toNat - 48

/-- Value of a digit string read in base 10. -/
def digitsToNat (cs : List Char) : Nat :=
  cs.foldl (fun n c => 10 * n + digitVal c) 0

/-- datetime.strptime(s, "%Y%m%d").date() as used on openDt strings
(line 373): succeeds exactly on 8-digit strings that encode a valid
calendar date with year at least 1; every other string raises ValueError,
modelled as none. -/
def strptimeYmd (s : String) : Option Date :=
  match s.data with
  | [y1, y2, y3, y4, m1, m2, d1, d2] =>
    if ([y1, y2, y3, y4, m1, m2, d1, d2].all Char.isDigit) then
      let y := digitsToNat [y1, y2, y3, y4]
      let m := digitsToNat [m1, m2]
      let d := digitsToNat [d1, d2]
      if 1 ≤ y ∧ 1 ≤ m ∧ m ≤ 12 ∧ 1 ≤ d ∧ d ≤ daysInMonth y m then
        some ⟨y, m, d⟩
      else none
    else none
  | _ => none

/-- Python int(s) applied to a string: optional surrounding whitespace,
an optional sign, then a nonempty run of decimal digits; any other shape
raises ValueError, modelled as none.  (Python additionally accepts single
underscores between digits; nothing in this development depends on
that case.) -/
def pyInt (s : String) : Option Int :=
  let cs := ((s.data.dropWhile Char.isWhitespace).reverse.dropWhile
    Char.isWhitespace).reverse
  match cs with
  | [] => none
  | c :: rest =>
    let signed : Int × List Char :=
      if c = '-' then (-1, rest)
      else if c = '+' then (1, rest)
      else (1, c :: rest)
    if signed.2 ≠ [] ∧ signed.2.all Char.isDigit then
      some (signed.1 * (digitsToNat signed.2 : Int))
    else none

/-- Python int() applied to an exactly represented quotient: truncation
toward zero. -/
def intTrunc (q : ℚ) : Int := q.num.tdiv (q.den : Int)

/-- Boolean test that the first list starts with the second list. -/
def leadeq : List Char → List Char → Bool
  | [], _ => true
  | _ :: _, [] => false
  | c :: cs, d :: ds => c = d && leadeq cs ds

/-- Boolean substring containment on character lists. -/
def hasSub (needle : List Char) : List Char → Bool
  | [] => needle.isEmpty
  | c :: rest => leadeq needle (c :: rest) || hasSub needle rest

/-- Python substring membership test: the expression sub in hay on strings.
It is case-sensitive exact containment. -/
def strContains (hay sub : String) : Bool := hasSub sub.data hay.data

/-- Python string slice s[:4], used by the display formatting. -/
def pyTake4 (s : String) : String := ⟨s.data.take 4⟩

/-- One (peopleNm, movieNm, audiCnt, openDt) director relation tuple,
as built on line 167. -/
structure DirectorTuple where
  peopleNm : String
  movieNm : String
  audiCnt : Int
  openDt : String
deriving Repr, DecidableEq

/-- One (companyNm, movieNm, audiCnt, role, openDt) company relation tuple,
as built on lines 175 and 178. -/
structure CompanyTuple where
  companyNm : String
  movieNm : String
  audiCnt : Int
  role : String
  openDt : String
deriving Repr, DecidableEq

/-- One normalized movie record, as assembled on lines 156-183. -/
structure MovieRecord where
  movieNm : String
  audiCnt : Int
  openDt : String
  watchGrade : String
  targetDate : Date
  rankInten : Int
  dailyAudience : List (Nat × Int)
  genres : List String
  directors : List DirectorTuple
  companies : List CompanyTuple
  distributors : List CompanyTuple
deriving Repr, DecidableEq

/-- Per-group accumulator of the grouping passes: the value type of the
defaultdicts on lines 194, 261, 311 and 362. -/
structure GroupData where
  total_audience : Int
  movie_count : Nat
  movie_list : List (String × String)
deriving Repr, DecidableEq

/-- Initial accumulator produced by the defaultdict factory. -/
def GroupData.empty : GroupData := ⟨0, 0, []⟩

/-- A Python dict from group key to accumulator, modelled as an
insertion-ordered association list with unique keys. -/
abbrev GroupMap := List (String × GroupData)

/-- Dict read with defaultdict semantics: a missing key denotes the
initial accumulator. -/
def getGroup : GroupMap → String → GroupData
  | [], _ => GroupData.empty
  | (k1, d) :: rest, k => if k1 = k then d else getGroup rest k

/-- Dict update with defaultdict semantics: modify the entry at an
existing key in place, or append a fresh entry at the end, matching
insertion-order iteration of Python dicts. -/
def updateGroup : GroupMap → String → (GroupData → GroupData) → GroupMap
  | [], k, f => [(k, f GroupData.empty)]
  | (k1, d) :: rest, k, f =>
    if k1 = k then (k1, f d) :: rest else (k1, d) :: updateGroup rest k f

/-- Grouping pass over a list of contributions: one updateGroup per
contribution, in order. -/
def groupFold (key : β → String) (upd : β → GroupData → GroupData)
    (m : GroupMap) (l : List β) : GroupMap :=
  l.foldl (fun acc b => updateGroup acc (key b) (upd b)) m

/-- Sum of the accumulated totals over all groups of a map. -/
def mapTotal (m : GroupMap) : Int :=
  (m.map (fun e => e.2.total_audience)).sum

/-- DataFrame.sort_values(by=key, ascending=False) followed by 1-based
rank assignment by position.  Modelled with mergeSort; see the header
note on the sort kind. -/
def sortValuesDesc (key : α → β) [LinearOrder β] (l : List α) : List α :=
  l.mergeSort (fun a b => decide (key b ≤ key a))

/-- Python sorted(movie_list, key=open_dt, reverse=True) as used on
lines 229, 286, 335 and 398: a stable descending sort by the openDt
string. -/
def sortedByOpenDtDesc (l : List (String × String)) : List (String × String) :=
  l.mergeSort (fun a b => decide (b.2 ≤ a.2))

/-- Display string for one member title (lines 230, 287, 336, 399). -/
def formatMovieEntry (p : String × String) : String :=
  p.1 ++ " (" ++ pyTake4 p.2 ++ ")"

/-- The entity selector of analyze_hitmaker_index. -/
inductive EntityType
  | director
  | company
deriving Repr, DecidableEq

/-- One flattened contribution of the hitmaker loop: the fields the loop
body reads from an entity tuple (lines 206-209), with openDt taken from
index 3 for directors and index 4 for companies. -/
structure Contribution where
  name : String
  movieNm : String
  audiCnt : Int
  openDt : String
deriving Repr, DecidableEq

/-- The entity tuples of one movie, as the loop on lines 201-209 reads
them for the chosen entity type. -/
def entityTuples : EntityType → MovieRecord → List Contribution
  | .director, m => m.directors.map (fun t => ⟨t.peopleNm, t.movieNm, t.audiCnt, t.openDt⟩)
  | .company, m => m.companies.map (fun t => ⟨t.companyNm, t.movieNm, t.audiCnt, t.openDt⟩)

/-- Body of the inner loop of analyze_hitmaker_index (lines 211-219):
the member count always grows; total and member list grow only for a
strictly positive audience. -/
def hitmakerUpd (c : Contribution) (d : GroupData) : GroupData :=
  let d1 : GroupData := { d with movie_count := d.movie_count + 1 }
  if 0 < c.audiCnt then
    { d1 with
        total_audience := d1.total_audience + c.audiCnt,
        movie_list := d1.movie_list ++ [(c.movieNm, c.openDt)] }
  else d1

/-- The entity_data dict after the grouping loop of analyze_hitmaker_index
(lines 194-219), including the skip of movies with an empty entity list
(lines 202-203). -/
def hitmakerData (et : EntityType) (records : List MovieRecord) : GroupMap :=
  records.foldl (fun m movie =>
    let entities := entityTuples et movie
    if entities.isEmpty then m
    else groupFold Contribution.name hitmakerUpd m entities) []

/-- One row of the analyze_hitmaker_index result (lines 232-239). -/
structure HitmakerRow where
  name : String
  movie_count : Nat
  total_audience : Int
  sort_index : Int
  movie_list : List String
deriving Repr, DecidableEq

/-- The row built for one qualifying group (lines 222-239): only groups
with strictly positive accumulated total produce a row. -/
def hitmakerRow (e : String × GroupData) : Option HitmakerRow :=
  if 0 < e.2.total_audience then
    some { name := e.1,
           movie_count := e.2.movie_count,
           total_audience := e.2.total_audience,
           sort_index := e.2.total_audience,
           movie_list := (sortedByOpenDtDesc e.2.movie_list).map formatMovieEntry }
  else none

/-- analyze_hitmaker_index (lines 192-253): grouping pass, row
construction, and descending sort on Sort_Index. -/
def analyze_hitmaker_index (records : List MovieRecord) (et : EntityType) :
    List HitmakerRow :=
  sortValuesDesc HitmakerRow.sort_index
    ((hitmakerData et records).filterMap hitmakerRow)

/-- Market denominator of the share computations: sum of audiCnt over all
input records (lines 262, 312, 363). -/
def marketTotal (records : List MovieRecord) : Int :=
  (records.map MovieRecord.audiCnt).sum

/-- Body of the genre loop of analyze_genre_trends (lines 271-278): the
total grows by the audience unconditionally, the member count always
grows, the member list grows only for a strictly positive audience. -/
def genreUpd (movie : MovieRecord) (d : GroupData) : GroupData :=
  { total_audience := d.total_audience + movie.audiCnt,
    movie_count := d.movie_count + 1,
    movie_list :=
      if 0 < movie.audiCnt then d.movie_list ++ [(movie.movieNm, movie.openDt)]
      else d.movie_list }

/-- The genre_data dict after the grouping loop of analyze_genre_trends
(lines 261-279), including the skip of movies with an empty genre list. -/
def genreData (records : List MovieRecord) : GroupMap :=
  records.foldl (fun m movie =>
    if movie.genres.isEmpty then m
    else movie.genres.foldl (fun acc g => updateGroup acc g (genreUpd movie)) m) []

/-- One row of the analyze_genre_trends result (lines 289-295). -/
structure GenreRow where
  genre_name : String
  total_audience : Int
  movie_count : Nat
  audience_share : ℚ
  movie_list : List String
deriving Repr, DecidableEq

/-- The row built for one qualifying genre group (lines 282-295): only
groups with strictly positive accumulated total produce a row, and the
share guards against a non-positive market total. -/
def genreRow (market : Int) (e : String × GroupData) : Option GenreRow :=
  if 0 < e.2.total_audience then
    some { genre_name := e.1,
           total_audience := e.2.total_audience,
           movie_count := e.2.movie_count,
           audience_share :=
             if 0 < market then
               ((e.2.total_audience : ℚ) / (market : ℚ)) * 100
             else 0,
           movie_list := (sortedByOpenDtDesc e.2.movie_list).map formatMovieEntry }
  else none

/-- analyze_genre_trends (lines 259-307): grouping pass, row construction,
descending sort on Total_Audience; also returns the market total. -/
def analyze_genre_trends (records : List MovieRecord) : List GenreRow × Int :=
  let market := marketTotal records
  (sortValuesDesc GenreRow.total_audience
    ((genreData records).filterMap (genreRow market)), market)

/-- Body of the rating loop of analyze_rating_impact (lines 321-327). -/
def ratingUpd (movie : MovieRecord) (d : GroupData) : GroupData :=
  { total_audience := d.total_audience + movie.audiCnt,
    movie_count := d.movie_count + 1,
    movie_list := d.movie_list ++ [(movie.movieNm, movie.openDt)] }

/-- The rating_data dict after the grouping loop of analyze_rating_impact
(lines 311-327): movies with a falsy rating or non-positive audience are
skipped. -/
def ratingData (records : List MovieRecord) : GroupMap :=
  records.foldl (fun m movie =>
    if movie.watchGrade = "" ∨ movie.audiCnt ≤ 0 then m
    else updateGroup m movie.watchGrade (ratingUpd movie)) []

/-- One row of the analyze_rating_impact result (lines 338-345).  The
Avg_Audience column stores int(avg_audience), the truncated average. -/
structure RatingRow where
  rating_name : String
  total_audience : Int
  movie_count : Nat
  avg_audience : Int
  audience_share : ℚ
  movie_list : List String
deriving Repr, DecidableEq

/-- The row built for one rating group (lines 330-345): the full-precision
average is computed on line 332 and truncated with int() on line 342
before it is stored. -/
def ratingRow (market : Int) (e : String × GroupData) : Option RatingRow :=
  if 0 < e.2.movie_count then
    some { rating_name := e.1,
           total_audience := e.2.total_audience,
           movie_count := e.2.movie_count,
           avg_audience :=
             intTrunc ((e.2.total_audience : ℚ) / (e.2.movie_count : ℚ)),
           audience_share :=
             if 0 < market then
               ((e.2.total_audience : ℚ) / (market : ℚ)) * 100
             else 0,
           movie_list := (sortedByOpenDtDesc e.2.movie_list).map formatMovieEntry }
  else none

/-- analyze_rating_impact (lines 309-358): grouping pass, row construction,
descending sort on the stored (truncated) Avg_Audience column. -/
def analyze_rating_impact (records : List MovieRecord) : List RatingRow × Int :=
  let market := marketTotal records
  (sortValuesDesc RatingRow.avg_audience
    ((ratingData records).filterMap (ratingRow market)), market)

/-- Cohort classification step of analyze_movie_age (lines 365-383): the
age-group label a record contributes to, or none when the record is
skipped (non-positive audience, falsy or sentinel openDt, or a ValueError
from strptime). -/
def movieCohort (target_date : Date) (movie : MovieRecord) : Option String :=
  if movie.audiCnt ≤ 0 ∨ movie.openDt = "" ∨ movie.openDt = "99991231" then none
  else
    match strptimeYmd movie.openDt with
    | none => none
    | some d =>
      let days : Int := (toOrdinal target_date : Int) - (toOrdinal d : Int)
      if days ≤ 7 then some "신작 (New Release)"
      else if days ≤ 28 then some "중기작 (Mid-Term)"
      else some "장기작 (Veteran)"

/-- Body of the cohort accumulation of analyze_movie_age (lines 385-391). -/
def ageUpd (movie : MovieRecord) (d : GroupData) : GroupData :=
  { total_audience := d.total_audience + movie.audiCnt,
    movie_count := d.movie_count + 1,
    movie_list := d.movie_list ++ [(movie.movieNm, movie.openDt)] }

/-- The age_data dict after the loop of analyze_movie_age (lines 362-391). -/
def ageData (target_date : Date) (records : List MovieRecord) : GroupMap :=
  records.foldl (fun m movie =>
    match movieCohort target_date movie with
    | none => m
    | some g => updateGroup m g (ageUpd movie)) []

/-- One row of the analyze_movie_age result (lines 401-407). -/
structure AgeRow where
  age_group : String
  total_audience : Int
  movie_count : Nat
  audience_share : ℚ
  movie_list : List String
deriving Repr, DecidableEq

/-- The row built for one qualifying cohort (lines 394-407). -/
def ageRow (market : Int) (e : String × GroupData) : Option AgeRow :=
  if 0 < e.2.total_audience then
    some { age_group := e.1,
           total_audience := e.2.total_audience,
           movie_count := e.2.movie_count,
           audience_share :=
             if 0 < market then
               ((e.2.total_audience : ℚ) / (market : ℚ)) * 100
             else 0,
           movie_list := (sortedByOpenDtDesc e.2.movie_list).map formatMovieEntry }
  else none

/-- analyze_movie_age (lines 360-419): cohort grouping, row construction,
descending sort on Total_Audience; also returns the market total. -/
def analyze_movie_age (records : List MovieRecord) (target_date : Date) :
    List AgeRow × Int :=
  let market := marketTotal records
  (sortValuesDesc AgeRow.total_audience
    ((ageData target_date records).filterMap (ageRow market)), market)

/-- Read of the per-day audience dict (defaultdict(int) built by
fetch_daily_boxoffice): a missing weekday index denotes 0. -/
def dLookup (daily : List (Nat × Int)) (i : Nat) : Int :=
  (daily.lookup i).getD 0

/-- One row of the analyze_daily_trend result (lines 475-482). -/
structure DailyRow where
  movie_name : String
  total_weekly_audience : Int
  weekend_audience : Int
  weekday_audience : Int
  weekend_dependency : ℚ
  open_date : String
deriving Repr, DecidableEq

/-- Per-movie step of analyze_daily_trend (lines 459-482): movies with an
empty daily dict or zero audiCnt are skipped; weekday indices are 0-4 and
weekend indices 5-6; the dependency ratio guards against a non-positive
total. -/
def dailyTrendRow (movie : MovieRecord) : Option DailyRow :=
  let daily := movie.dailyAudience
  let total := movie.audiCnt
  if daily.isEmpty ∨ total = 0 then none
  else
    let weekday_aud := (([0, 1, 2, 3, 4] : List Nat).map (dLookup daily)).sum
    let weekend_aud := (([5, 6] : List Nat).map (dLookup daily)).sum
    some { movie_name := movie.movieNm,
           total_weekly_audience := total,
           weekend_audience := weekend_aud,
           weekday_audience := weekday_aud,
           weekend_dependency :=
             if 0 < total then ((weekend_aud : ℚ) / (total : ℚ)) * 100 else 0,
           open_date := movie.openDt }

/-- analyze_daily_trend (lines 450-495): per-movie rows sorted descending
on the weekend dependency ratio. -/
def analyze_daily_trend (records : List MovieRecord) : List DailyRow :=
  sortValuesDesc DailyRow.weekend_dependency (records.filterMap dailyTrendRow)

/-- Uncaught Python exceptions raised by the normalization code in
get_full_analysis_data. -/
inductive PyError
  | valueError
  | indexError
deriving Repr, DecidableEq

/-- One entry of the audits list of a detail payload: the watchGradeNm
key may be absent. -/
structure AuditEntry where
  watchGradeNm : Option String
deriving Repr, DecidableEq

/-- One entry of the companys list of a detail payload: both keys may be
absent. -/
structure CompanyEntry where
  companyNm : Option String
  companyPartNm : Option String
deriving Repr, DecidableEq

/-- One raw weekly box-office entry, restricted to the keys the
normalization reads: movieNm, audiAcc (a numeric string) and rankInten.
A missing audiAcc defaults to the string "0" and a missing rankInten to
the integer 0 (lines 149, 153). -/
structure BoxOfficeItem where
  movieNm : String
  audiAcc : Option String
  rankInten : Option String
deriving Repr, DecidableEq

/-- One raw detail payload, restricted to the keys the normalization
reads (lines 152-181); every key may be absent. -/
structure DetailInfo where
  openDt : Option String
  audits : Option (List AuditEntry)
  genres : Option (List String)
  directors : Option (List String)
  companys : Option (List CompanyEntry)
deriving Repr, DecidableEq

/-- The company tuple appended for a matching company entry (lines 175
and 178). -/
def companyTupleOf (box : BoxOfficeItem) (audi_cnt : Int) (open_dt : String)
    (c : CompanyEntry) : CompanyTuple :=
  ⟨c.companyNm.getD "Unknown", box.movieNm, audi_cnt, c.companyPartNm.getD "", open_dt⟩

/-- Record normalization for one box-office item (lines 141-183 of
get_full_analysis_data).  Returns none when the detail payload is absent
(the record is dropped, line 151).  The int() conversions on lines 149
and 153 have no error handling, so a malformed numeric string raises
ValueError; the audits access on line 154 indexes the default [{}] only
when the key is absent, so a present-but-empty audits list raises
IndexError.  Both escape as Except.error.  The daily audience dict is
fetched by a network collaborator and is passed in here. -/
def normalize_record (box : BoxOfficeItem) (detail : Option DetailInfo)
    (daily : List (Nat × Int)) (target_date : Date) :
    Except PyError (Option MovieRecord) := do
  let rank_inten : Int ←
    match box.rankInten with
    | none => pure 0
    | some s =>
      match pyInt s with
      | some n => pure n
      | none => throw PyError.valueError
  match detail with
  | none => return none
  | some info =>
    let open_dt := info.openDt.getD "99991231"
    let audi_cnt : Int ←
      match pyInt (box.audiAcc.getD "0") with
      | some n => pure n
      | none => throw PyError.valueError
    let watch_grade : String ←
      match info.audits with
      | none => pure "Not Rated"
      | some [] => throw PyError.indexError
      | some (a :: _) => pure (a.watchGradeNm.getD "Not Rated")
    let genres := info.genres.getD []
    let directors := (info.directors.getD []).map
      (fun nm => DirectorTuple.mk nm box.movieNm audi_cnt open_dt)
    let companies := (info.companys.getD []).filterMap (fun c =>
      let role := c.companyPartNm.getD ""
      if strContains role "Producer" || strContains role "Distributor" ||
          strContains role "제작" || strContains role "배급" then
        some (companyTupleOf box audi_cnt open_dt c)
      else none)
    let distributors := (info.companys.getD []).filterMap (fun c =>
      let role := c.companyPartNm.getD ""
      if strContains role "Distributor" || strContains role "배급" then
        some (companyTupleOf box audi_cnt open_dt c)
      else none)
    return some
      { movieNm := box.movieNm,
        audiCnt := audi_cnt,
        openDt := open_dt,
        watchGrade := watch_grade,
        targetDate := target_date,
        rankInten := rank_inten,
        dailyAudience := daily,
        genres := genres,
        directors := directors,
        companies := companies,
        distributors := distributors }

/-- Flattened genre contributions: one (genre, movie) pair per genre of
each movie, in the iteration order of the genre loop. -/
def genreContribs (records : List MovieRecord) : List (String × MovieRecord) :=
  records.flatMap (fun movie => movie.genres.map (fun g => (g, movie)))

/-- Flattened cohort contributions: one (label, movie) pair per movie
that the cohort classification does not skip. -/
def ageContribs (target_date : Date) (records : List MovieRecord) :
    List (String × MovieRecord) :=
  records.filterMap (fun movie => (movieCohort target_date movie).map (fun g => (g, movie)))

/-- Reference date shared by the concrete sample inputs below. -/
def targetD : Date := ⟨2024, 3, 10⟩

/-- A movie record with every optional-ish field at its neutral value;
the concrete samples below override the fields they exercise. -/
def baseMovie : MovieRecord :=
  { movieNm := "", audiCnt := 0, openDt := "99991231", watchGrade := "",
    targetDate := targetD, rankInten := 0, dailyAudience := [], genres := [],
    directors := [], companies := [], distributors := [] }

/-- Title A of the end-to-end scenario: director X, audience 1000000. -/
def movieA : MovieRecord :=
  { baseMovie with
    movieNm := "A"
    audiCnt := 1000000
    openDt := "20240101"
    directors := [⟨"X", "A", 1000000, "20240101"⟩] }

/-- Title B of the end-to-end scenario: director X, audience 0. -/
def movieB : MovieRecord :=
  { baseMovie with
    movieNm := "B"
    audiCnt := 0
    openDt := "20240201"
    directors := [⟨"X", "B", 0, "20240201"⟩] }

/-- Title C of the end-to-end scenario: director Y, audience 500000. -/
def movieC : MovieRecord :=
  { baseMovie with
    movieNm := "C"
    audiCnt := 500000
    openDt := "20240301"
    directors := [⟨"Y", "C", 500000, "20240301"⟩] }

/-- The three-title scenario input. -/
def sampleDirectorRecords : List MovieRecord := [movieA, movieB, movieC]

/-- Genre sample: one Drama title with audience 40. -/
def movieG1 : MovieRecord :=
  { baseMovie with
    movieNm := "G1"
    audiCnt := 40
    openDt := "20240101"
    genres := ["Drama"] }

/-- Genre sample: one Drama title with audience 0. -/
def movieG2 : MovieRecord :=
  { baseMovie with
    movieNm := "G2"
    audiCnt := 0
    openDt := "20240102"
    genres := ["Drama"] }

/-- Genre sample input: market total 40, one qualifying genre group. -/
def sampleGenreRecords : List MovieRecord := [movieG1, movieG2]

/-- Rating sample: rating 15, audience 1. -/
def movieR1 : MovieRecord :=
  { baseMovie with
    movieNm := "R1"
    audiCnt := 1
    openDt := "20240101"
    watchGrade := "15" }

/-- Rating sample: rating 15, audience 2. -/
def movieR2 : MovieRecord :=
  { baseMovie with
    movieNm := "R2"
    audiCnt := 2
    openDt := "20240102"
    watchGrade := "15" }

/-- Rating sample input: one group with total 3 over 2 movies, whose
full-precision average 1.5 is not an integer. -/
def sampleRatingRecords : List MovieRecord := [movieR1, movieR2]

/-- Cohort sample: opened 2024-01-01, audience 5. -/
def sampleAgeMovie : MovieRecord :=
  { baseMovie with
    movieNm := "M"
    audiCnt := 5
    openDt := "20240101" }

/-- Daily-trend sample: the spec example dict with weekday sum 50,
weekend sum 50, weekly total 100. -/
def sampleDailyMovie : MovieRecord :=
  { baseMovie with
    movieNm := "D"
    audiCnt := 100
    openDt := "20240101"
    dailyAudience := [(0, 10), (1, 10), (2, 10), (3, 10), (4, 10), (5, 25), (6, 25)] }

/-- Detail payload with every optional key absent except openDt. -/
def sampleDetail : DetailInfo :=
  { openDt := some "20240101", audits := none, genres := none,
    directors := none, companys := none }

/-- Box-office item whose cumulative audience carries a thousands
separator, the shape the upstream feed documents. -/
def commaBox : BoxOfficeItem :=
  { movieNm := "T", audiAcc := some "1,234", rankInten := none }

/-- Box-office item with a plain numeric cumulative audience. -/
def plainBox : BoxOfficeItem :=
  { movieNm := "T", audiAcc := some "1000", rankInten := none }

/-- Detail payload whose audits key is present but holds an empty list. -/
def emptyAuditsDetail : DetailInfo :=
  { openDt := some "20240101", audits := some [], genres := none,
    directors := none, companys := none }

/-- Detail payload with one company whose role string is the distributor
token in lower case. -/
def lowercaseRoleDetail : DetailInfo :=
  { openDt := some "20240101", audits := none, genres := none,
    directors := none,
    companys := some [{ companyNm := some "CGV", companyPartNm := some "distributor" }] }

/-- The record normalization produces for plainBox and
lowercaseRoleDetail: both company lists stay empty. -/
def recLowercaseRole : MovieRecord :=
  { baseMovie with
    movieNm := "T"
    audiCnt := 1000
    openDt := "20240101"
    watchGrade := "Not Rated" }

/-- Detail payload with one company whose role string is the distributor
token in its exact case. -/
def properRoleDetail : DetailInfo :=
  { openDt := some "20240101", audits := none, genres := none,
    directors := none,
    companys := some [{ companyNm := some "ABC", companyPartNm := some "Distributor" }] }

/-- The record normalization produces for plainBox and properRoleDetail:
the company appears in both company lists. -/
def recProperRole : MovieRecord :=
  { baseMovie with
    movieNm := "T"
    audiCnt := 1000
    openDt := "20240101"
    watchGrade := "Not Rated"
    companies := [⟨"ABC", "T", 1000, "Distributor", "20240101"⟩]
    distributors := [⟨"ABC", "T", 1000, "Distributor", "20240101"⟩] }

/-! Association-list lemmas for the grouping machinery. -/

theorem getGroup_updateGroup_self (m : GroupMap) (k : String)
    (f : GroupData → GroupData) :
    getGroup (updateGroup m k f) k = f (getGroup m k) := by
  induction m with
  | nil => simp [updateGroup, getGroup]
  | cons e rest ih =>
    obtain ⟨k1, d⟩ := e
    by_cases h : k1 = k
    · subst h
      simp [updateGroup, getGroup]
    · simp [updateGroup, getGroup, h, ih]

theorem getGroup_updateGroup_ne (m : GroupMap) (k k2 : String)
    (f : GroupData → GroupData) (h : k2 ≠ k) :
    getGroup (updateGroup m k f) k2 = getGroup m k2 := by
  induction m with
  | nil =>
    show (if k = k2 then f GroupData.empty else GroupData.empty) = GroupData.empty
    rw [if_neg (fun hh => h hh.symm)]
  | cons e rest ih =>
    obtain ⟨k1, d⟩ := e
    by_cases h1 : k1 = k
    · subst h1
      simp [updateGroup, getGroup]
      rw [if_neg (fun hh => h hh.symm), if_neg (fun hh => h hh.symm)]
    · simp [updateGroup, getGroup, h1, ih]

theorem groupFold_nil (key : β → String) (upd : β → GroupData → GroupData)
    (m : GroupMap) : groupFold key upd m [] = m := rfl

theorem groupFold_cons (key : β → String) (upd : β → GroupData → GroupData)
    (m : GroupMap) (b : β) (l : List β) :
    groupFold key upd m (b :: l)
      = groupFold key upd (updateGroup m (key b) (upd b)) l := rfl

theorem groupFold_append (key : β → String) (upd : β → GroupData → GroupData)
    (m : GroupMap) (l1 l2 : List β) :
    groupFold key upd m (l1 ++ l2)
      = groupFold key upd (groupFold key upd m l1) l2 :=
  List.foldl_append _ _ _ _

theorem getGroup_groupFold (key : β → String) (upd : β → GroupData → GroupData)
    (k : String) (l : List β) (m : GroupMap) :
    getGroup (groupFold key upd m l) k
      = (l.filter (fun b => decide (key b = k))).foldl (fun d b => upd b d)
          (getGroup m k) := by
  induction l generalizing m with
  | nil => rfl
  | cons b l ih =>
    rw [groupFold_cons, ih]
    by_cases h : key b = k
    · rw [List.filter_cons_of_pos (by simpa using h), List.foldl_cons, ← h,
        getGroup_updateGroup_self]
    · rw [List.filter_cons_of_neg (by simpa using h),
        getGroup_updateGroup_ne _ _ _ _ (fun hh => h hh.symm)]

theorem mapTotal_nil : mapTotal [] = 0 := rfl

theorem mapTotal_updateGroup (m : GroupMap) (k : String)
    (f : GroupData → GroupData) :
    mapTotal (updateGroup m k f)
      = mapTotal m + ((f (getGroup m k)).total_audience
          - (getGroup m k).total_audience) := by
  induction m with
  | nil =>
    simp [updateGroup, mapTotal, getGroup, GroupData.empty]
  | cons e rest ih =>
    obtain ⟨k1, d⟩ := e
    by_cases h : k1 = k
    · subst h
      simp [updateGroup, getGroup, mapTotal]
      ring
    · simp [updateGroup, getGroup, mapTotal, h] at ih ⊢
      rw [ih]
      ring

theorem mapTotal_groupFold (key : β → String) (upd : β → GroupData → GroupData)
    (f : β → Int)
    (hf : ∀ b d, (upd b d).total_audience = d.total_audience + f b)
    (l : List β) (m : GroupMap) :
    mapTotal (groupFold key upd m l) = mapTotal m + (l.map f).sum := by
  induction l generalizing m with
  | nil => simp [groupFold]
  | cons b l ih =>
    rw [groupFold_cons, ih, mapTotal_updateGroup, hf]
    simp
    ring

theorem updateGroup_preserves (P : GroupData → Prop) (m : GroupMap) (k : String)
    (f : GroupData → GroupData) (hP0 : P GroupData.empty)
    (hf : ∀ d, P d → P (f d)) (hm : ∀ e ∈ m, P e.2) :
    ∀ e ∈ updateGroup m k f, P e.2 := by
  induction m with
  | nil =>
    intro e he
    simp [updateGroup] at he
    subst he
    exact hf _ hP0
  | cons e0 rest ih =>
    obtain ⟨k1, d⟩ := e0
    by_cases h : k1 = k
    · subst h
      intro e he
      simp [updateGroup] at he
      rcases he with he | he
      · subst he
        exact hf _ (hm (k1, d) (by simp))
      · exact hm e (List.mem_cons_of_mem _ he)
    · intro e he
      simp [updateGroup, h] at he
      rcases he with he | he
      · subst he
        exact hm (k1, d) (by simp)
      · exact ih (fun x hx => hm x (List.mem_cons_of_mem _ hx)) e he

theorem groupFold_preserves (key : β → String) (upd : β → GroupData → GroupData)
    (P : GroupData → Prop) (hP0 : P GroupData.empty)
    (hupd : ∀ b d, P d → P (upd b d)) (l : List β) (m : GroupMap)
    (hm : ∀ e ∈ m, P e.2) :
    ∀ e ∈ groupFold key upd m l, P e.2 := by
  induction l generalizing m with
  | nil => exact hm
  | cons b l ih =>
    rw [groupFold_cons]
    exact ih _ (updateGroup_preserves P m (key b) (upd b) hP0 (hupd b) hm)

/-! The three grouping loops, flattened to a single groupFold over their
contribution sequences. -/

theorem hitmakerData_eq (et : EntityType) (records : List MovieRecord) :
    hitmakerData et records
      = groupFold Contribution.name hitmakerUpd []
          (records.flatMap (entityTuples et)) := by
  show List.foldl _ ([] : GroupMap) records = _
  generalize ([] : GroupMap) = m
  induction records generalizing m with
  | nil => rfl
  | cons r rs ih =>
    rw [List.flatMap_cons, groupFold_append, List.foldl_cons]
    by_cases h : (entityTuples et r).isEmpty
    · rw [List.isEmpty_iff] at h
      simp only [h, List.isEmpty_nil, if_true, groupFold_nil]
      exact ih m
    · simp only [h, if_false]
      exact ih _

theorem genreData_eq (records : List MovieRecord) :
    genreData records
      = groupFold Prod.fst (fun p => genreUpd p.2) [] (genreContribs records) := by
  show List.foldl _ ([] : GroupMap) records = _
  generalize ([] : GroupMap) = m
  induction records generalizing m with
  | nil => rfl
  | cons r rs ih =>
    rw [genreContribs, List.flatMap_cons, ← genreContribs, groupFold_append,
      List.foldl_cons]
    by_cases h : r.genres.isEmpty
    · rw [List.isEmpty_iff] at h
      simp only [h, List.isEmpty_nil, if_true, List.map_nil, groupFold_nil]
      exact ih m
    · simp only [h, if_false]
      rw [show groupFold Prod.fst (fun p => genreUpd p.2) m
            (r.genres.map (fun g => (g, r)))
          = r.genres.foldl (fun acc g => updateGroup acc g (genreUpd r)) m by
        rw [groupFold, List.foldl_map]]
      exact ih _

theorem ageData_eq (target_date : Date) (records : List MovieRecord) :
    ageData target_date records
      = groupFold Prod.fst (fun p => ageUpd p.2) []
          (ageContribs target_date records) := by
  show List.foldl _ ([] : GroupMap) records = _
  generalize ([] : GroupMap) = m
  induction records generalizing m with
  | nil => rfl
  | cons r rs ih =>
    rw [List.foldl_cons]
    cases h : movieCohort target_date r with
    | none =>
      have hc : ageContribs target_date (r :: rs) = ageContribs target_date rs := by
        simp [ageContribs, List.filterMap_cons, h]
      rw [hc]
      exact ih m
    | some g =>
      have hc : ageContribs target_date (r :: rs)
          = (g, r) :: ageContribs target_date rs := by
        simp [ageContribs, List.filterMap_cons, h]
      rw [hc, groupFold_cons]
      exact ih _

/-! Values of one group accumulator, as a function of its fiber of
contributions. -/

theorem hitmaker_foldl_count (fl : List Contribution) (d0 : GroupData) :
    (fl.foldl (fun d c => hitmakerUpd c d) d0).movie_count
      = d0.movie_count + fl.length := by
  induction fl generalizing d0 with
  | nil => simp
  | cons c fl ih =>
    rw [List.foldl_cons, ih]
    by_cases h : 0 < c.audiCnt
    · simp [hitmakerUpd, h]
      ring
    · simp [hitmakerUpd, h]
      ring

theorem hitmaker_foldl_total (fl : List Contribution) (d0 : GroupData) :
    (fl.foldl (fun d c => hitmakerUpd c d) d0).total_audience
      = d0.total_audience
        + ((fl.filter (fun c => decide (0 < c.audiCnt))).map
            Contribution.audiCnt).sum := by
  induction fl generalizing d0 with
  | nil => simp
  | cons c fl ih =>
    rw [List.foldl_cons, ih]
    by_cases h : 0 < c.audiCnt
    · simp [hitmakerUpd, h]
      ring
    · simp [hitmakerUpd, h]

theorem hitmaker_foldl_list (fl : List Contribution) (d0 : GroupData) :
    (fl.foldl (fun d c => hitmakerUpd c d) d0).movie_list
      = d0.movie_list
        ++ ((fl.filter (fun c => decide (0 < c.audiCnt))).map
            (fun c => (c.movieNm, c.openDt))) := by
  induction fl generalizing d0 with
  | nil => simp
  | cons c fl ih =>
    rw [List.foldl_cons, ih]
    by_cases h : 0 < c.audiCnt
    · simp [hitmakerUpd, h]
    · simp [hitmakerUpd, h]

theorem genre_foldl_count (fl : List (String × MovieRecord)) (d0 : GroupData) :
    (fl.foldl (fun d p => genreUpd p.2 d) d0).movie_count
      = d0.movie_count + fl.length := by
  induction fl generalizing d0 with
  | nil => simp
  | cons p fl ih =>
    rw [List.foldl_cons, ih]
    simp [genreUpd]
    ring

theorem genre_foldl_list (fl : List (String × MovieRecord)) (d0 : GroupData) :
    (fl.foldl (fun d p => genreUpd p.2 d) d0).movie_list
      = d0.movie_list
        ++ ((fl.filter (fun p => decide (0 < p.2.audiCnt))).map
            (fun p => (p.2.movieNm, p.2.openDt))) := by
  induction fl generalizing d0 with
  | nil => simp
  | cons p fl ih =>
    rw [List.foldl_cons, ih]
    by_cases h : 0 < p.2.audiCnt
    · simp [genreUpd, h]
    · simp [genreUpd, h]

theorem age_foldl_list (fl : List (String × MovieRecord)) (d0 : GroupData) :
    (fl.foldl (fun d p => ageUpd p.2 d) d0).movie_list
      = d0.movie_list ++ (fl.map (fun p => (p.2.movieNm, p.2.openDt))) := by
  induction fl generalizing d0 with
  | nil => simp
  | cons p fl ih =>
    rw [List.foldl_cons, ih]
    simp [ageUpd]

/-! Sorting and row-membership helpers. -/

theorem sortValuesDesc_perm (key : α → γ) [LinearOrder γ] (l : List α) :
    (sortValuesDesc key l).Perm l :=
  List.mergeSort_perm l _

theorem mem_sortValuesDesc (key : α → γ) [LinearOrder γ] (l : List α) (a : α) :
    a ∈ sortValuesDesc key l ↔ a ∈ l :=
  (sortValuesDesc_perm key l).mem_iff

theorem pairwise_sortValuesDesc (key : α → γ) [LinearOrder γ] (l : List α) :
    List.Pairwise (fun a b => key b ≤ key a) (sortValuesDesc key l) := by
  have h := @List.sorted_mergeSort α (fun a b => decide (key b ≤ key a))
    (fun a b c hab hbc => by
      have h1 := of_decide_eq_true hab
      have h2 := of_decide_eq_true hbc
      exact decide_eq_true (le_trans h2 h1))
    (fun a b => by
      rcases le_total (key b) (key a) with h1 | h1
      · simp [h1]
      · simp [h1])
    l
  exact h.imp (fun hab => of_decide_eq_true hab)

theorem mem_hitmaker_rows (records : List MovieRecord) (et : EntityType)
    (row : HitmakerRow) :
    row ∈ analyze_hitmaker_index records et
      ↔ ∃ e ∈ hitmakerData et records, hitmakerRow e = some row := by
  rw [analyze_hitmaker_index, mem_sortValuesDesc, List.mem_filterMap]

theorem mem_genre_rows (records : List MovieRecord) (row : GenreRow) :
    row ∈ (analyze_genre_trends records).1
      ↔ ∃ e ∈ genreData records, genreRow (marketTotal records) e = some row := by
  rw [analyze_genre_trends, mem_sortValuesDesc, List.mem_filterMap]

theorem mem_rating_rows (records : List MovieRecord) (row : RatingRow) :
    row ∈ (analyze_rating_impact records).1
      ↔ ∃ e ∈ ratingData records, ratingRow (marketTotal records) e = some row := by
  rw [analyze_rating_impact, mem_sortValuesDesc, List.mem_filterMap]

theorem mem_daily_rows (records : List MovieRecord) (row : DailyRow) :
    row ∈ analyze_daily_trend records
      ↔ ∃ movie ∈ records, dailyTrendRow movie = some row := by
  rw [analyze_daily_trend, mem_sortValuesDesc, List.mem_filterMap]

/-! Support lemmas for the contribution-sum property. -/

theorem hitmakerData_nonneg (et : EntityType) (records : List MovieRecord) :
    ∀ e ∈ hitmakerData et records, 0 ≤ e.2.total_audience := by
  rw [hitmakerData_eq]
  refine groupFold_preserves _ _ (fun d => 0 ≤ d.total_audience) le_rfl ?_ _ _
    (by intro e he; cases he)
  intro c d hd
  by_cases h : 0 < c.audiCnt
  · simp only [hitmakerUpd, h, if_true]
    omega
  · simpa only [hitmakerUpd, h, if_false] using hd

theorem mapTotal_cons (e : String × GroupData) (m : GroupMap) :
    mapTotal (e :: m) = e.2.total_audience + mapTotal m := by
  simp [mapTotal]

theorem sum_hitmaker_filterMap (m : GroupMap)
    (h : ∀ e ∈ m, 0 ≤ e.2.total_audience) :
    ((m.filterMap hitmakerRow).map HitmakerRow.total_audience).sum = mapTotal m := by
  induction m with
  | nil => rfl
  | cons e rest ih =>
    have hrest : ∀ x ∈ rest, 0 ≤ x.2.total_audience :=
      fun x hx => h x (List.mem_cons_of_mem _ hx)
    by_cases hpos : 0 < e.2.total_audience
    · have he : hitmakerRow e = some
          { name := e.1,
            movie_count := e.2.movie_count,
            total_audience := e.2.total_audience,
            sort_index := e.2.total_audience,
            movie_list := (sortedByOpenDtDesc e.2.movie_list).map formatMovieEntry } := by
        simp [hitmakerRow, hpos]
      rw [List.filterMap_cons, he]
      simp only [List.map_cons, List.sum_cons, mapTotal_cons, ih hrest]
    · have h0 : e.2.total_audience = 0 :=
        le_antisymm (not_lt.mp hpos) (h e (List.mem_cons_self _ _))
      have he : hitmakerRow e = none := by
        simp [hitmakerRow, hpos]
      rw [List.filterMap_cons, he]
      simp only [mapTotal_cons, h0, zero_add]
      exact ih hrest

theorem sum_if_pos_eq_sum_filter (l : List Contribution) :
    (l.map (fun c => if 0 < c.audiCnt then c.audiCnt else 0)).sum
      = ((l.filter (fun c => decide (0 < c.audiCnt))).map
          Contribution.audiCnt).sum := by
  induction l with
  | nil => rfl
  | cons c l ih =>
    by_cases h : 0 < c.audiCnt
    · simp [List.filter_cons, h, ih]
    · simp [List.filter_cons, h, ih]

theorem flatMap_director_contribs (records : List MovieRecord) :
    records.flatMap (entityTuples EntityType.director)
      = (records.flatMap MovieRecord.directors).map
          (fun t => Contribution.mk t.peopleNm t.movieNm t.audiCnt t.openDt) := by
  induction records with
  | nil => rfl
  | cons r rs ih =>
    rw [List.flatMap_cons, List.flatMap_cons, List.map_append, ih]
    rfl

/-- C1: for every non-empty input, the sum of Total_Audience over the
groups returned by analyze_hitmaker_index with entity type director
equals the sum of audience over all director relation tuples with
strictly positive audience, one term per tuple (a director credited on
two titles contributes twice); moreover every returned group has
strictly positive Total_Audience, so zero-total groups are omitted. -/
theorem hitmaker_director_contribution_sum (records : List MovieRecord)
    (_hne : records ≠ []) :
    ((analyze_hitmaker_index records EntityType.director).map
        HitmakerRow.total_audience).sum
      = (((records.flatMap MovieRecord.directors).filter
            (fun t => decide (0 < t.audiCnt))).map DirectorTuple.audiCnt).sum
    ∧ ∀ row ∈ analyze_hitmaker_index records EntityType.director,
        0 < row.total_audience := by
  constructor
  · have hperm := sortValuesDesc_perm HitmakerRow.sort_index
      ((hitmakerData EntityType.director records).filterMap hitmakerRow)
    rw [analyze_hitmaker_index, (hperm.map HitmakerRow.total_audience).sum_eq,
      sum_hitmaker_filterMap _ (hitmakerData_nonneg _ _), hitmakerData_eq,
      mapTotal_groupFold Contribution.name hitmakerUpd
        (fun c => if 0 < c.audiCnt then c.audiCnt else 0)
        (fun c d => by
          by_cases h : 0 < c.audiCnt
          · simp [hitmakerUpd, h]
          · simp [hitmakerUpd, h]),
      mapTotal_nil, zero_add, sum_if_pos_eq_sum_filter,
      flatMap_director_contribs, List.filter_map, List.map_map]
    rfl
  · intro row hrow
    rw [mem_hitmaker_rows] at hrow
    obtain ⟨e, _he, hre⟩ := hrow
    rw [hitmakerRow] at hre
    split at hre
    next hguard =>
      injection hre with h2
      rw [← h2]
      exact hguard
    next hguard =>
      exact absurd hre (by simp)

/-- Concrete check of the C1 theorem on the three-title scenario input. -/
theorem hitmaker_director_contribution_sum_check :
    ((analyze_hitmaker_index sampleDirectorRecords EntityType.director).map
        HitmakerRow.total_audience).sum
      = (((sampleDirectorRecords.flatMap MovieRecord.directors).filter
            (fun t => decide (0 < t.audiCnt))).map DirectorTuple.audiCnt).sum
    ∧ ∀ row ∈ analyze_hitmaker_index sampleDirectorRecords EntityType.director,
        0 < row.total_audience :=
  hitmaker_director_contribution_sum sampleDirectorRecords (by decide)

/-- C10: in the entity-contribution and genre-trend groupings, a group's
member-title list collects exactly the contributions with strictly
positive audience, while the member count counts every contribution, so
a zero-audience contribution raises the count without extending the
list; hence the list length never exceeds the count, and on the
three-title scenario input the group of director X has list length 1
strictly below member count 2. -/
theorem member_lists_only_positive_contributions :
    (∀ (et : EntityType) (records : List MovieRecord) (k : String),
        (getGroup (hitmakerData et records) k).movie_list
            = (((records.flatMap (entityTuples et)).filter
                  (fun c => decide (c.name = k))).filter
                (fun c => decide (0 < c.audiCnt))).map
                  (fun c => (c.movieNm, c.openDt))
          ∧ (getGroup (hitmakerData et records) k).movie_count
              = ((records.flatMap (entityTuples et)).filter
                  (fun c => decide (c.name = k))).length
          ∧ (getGroup (hitmakerData et records) k).movie_list.length
              ≤ (getGroup (hitmakerData et records) k).movie_count)
    ∧ (∀ (records : List MovieRecord) (k : String),
        (getGroup (genreData records) k).movie_list
            = (((genreContribs records).filter
                  (fun p => decide (p.1 = k))).filter
                (fun p => decide (0 < p.2.audiCnt))).map
                  (fun p => (p.2.movieNm, p.2.openDt))
          ∧ (getGroup (genreData records) k).movie_count
              = ((genreContribs records).filter
                  (fun p => decide (p.1 = k))).length
          ∧ (getGroup (genreData records) k).movie_list.length
              ≤ (getGroup (genreData records) k).movie_count)
    ∧ (getGroup (hitmakerData EntityType.director sampleDirectorRecords)
          "X").movie_list.length
        < (getGroup (hitmakerData EntityType.director sampleDirectorRecords)
            "X").movie_count := by
  refine ⟨?_, ?_, by decide⟩
  · intro et records k
    have hbase : getGroup ([] : GroupMap) k = GroupData.empty := rfl
    refine ⟨?_, ?_, ?_⟩
    · rw [hitmakerData_eq, getGroup_groupFold, hbase, hitmaker_foldl_list]
      simp [GroupData.empty]
    · rw [hitmakerData_eq, getGroup_groupFold, hbase, hitmaker_foldl_count]
      simp [GroupData.empty]
    · rw [hitmakerData_eq, getGroup_groupFold, hbase, hitmaker_foldl_list,
        hitmaker_foldl_count]
      simp only [GroupData.empty, List.nil_append, zero_add, List.length_map]
      exact List.length_filter_le _ _
  · intro records k
    have hbase : getGroup ([] : GroupMap) k = GroupData.empty := rfl
    refine ⟨?_, ?_, ?_⟩
    · rw [genreData_eq, getGroup_groupFold, hbase, genre_foldl_list]
      simp [GroupData.empty]
    · rw [genreData_eq, getGroup_groupFold, hbase, genre_foldl_count]
      simp [GroupData.empty]
    · rw [genreData_eq, getGroup_groupFold, hbase, genre_foldl_list,
        genre_foldl_count]
      simp only [GroupData.empty, List.nil_append, zero_add, List.length_map]
      exact List.length_filter_le _ _

/-- C4: every genre row's share equals totalAudience divided by the sum
of audience over all input records (not only the group's) times 100; a
zero market total yields share 0 with no division error; and a genre
group appears in the result exactly when its accumulated totalAudience
is strictly positive. -/
theorem genre_trend_share (records : List MovieRecord) :
    (∀ row ∈ (analyze_genre_trends records).1,
        (0 < (records.map MovieRecord.audiCnt).sum →
            row.audience_share
              = (row.total_audience : ℚ)
                  / (((records.map MovieRecord.audiCnt).sum : Int) : ℚ) * 100)
          ∧ ((records.map MovieRecord.audiCnt).sum = 0 → row.audience_share = 0)
          ∧ 0 < row.total_audience)
    ∧ (∀ g : String,
        (∃ row ∈ (analyze_genre_trends records).1, row.genre_name = g)
          ↔ ∃ d, (g, d) ∈ genreData records ∧ 0 < d.total_audience) := by
  have hmkt : marketTotal records = (records.map MovieRecord.audiCnt).sum := rfl
  constructor
  · intro row hrow
    rw [mem_genre_rows] at hrow
    obtain ⟨e, hmem, hre⟩ := hrow
    rw [genreRow] at hre
    split at hre
    next hguard =>
      injection hre with h2
      subst h2
      refine ⟨?_, ?_, hguard⟩
      · intro hm
        rw [show (0 : Int) < (records.map MovieRecord.audiCnt).sum
            ↔ 0 < marketTotal records from by rw [hmkt]] at hm
        simp only [if_pos hm]
        rfl
      · intro hm
        have hno : ¬ 0 < marketTotal records := by
          rw [hmkt, hm]
          exact lt_irrefl 0
        simp only [if_neg hno]
    next =>
      exact absurd hre (by simp)
  · intro g
    constructor
    · rintro ⟨row, hrow, hg⟩
      rw [mem_genre_rows] at hrow
      obtain ⟨e, hmem, hre⟩ := hrow
      rw [genreRow] at hre
      split at hre
      next hguard =>
        injection hre with h2
        have hname : e.1 = g := by rw [← hg, ← h2]
        refine ⟨e.2, ?_, hguard⟩
        rw [← hname]
        simpa using hmem
      next =>
        exact absurd hre (by simp)
    · rintro ⟨d, hmem, hpos⟩
      refine ⟨{ genre_name := g,
                total_audience := d.total_audience,
                movie_count := d.movie_count,
                audience_share :=
                  if 0 < marketTotal records then
                    ((d.total_audience : ℚ) / ((marketTotal records : Int) : ℚ)) * 100
                  else 0,
                movie_list := (sortedByOpenDtDesc d.movie_list).map formatMovieEntry },
        ?_, rfl⟩
      rw [mem_genre_rows]
      exact ⟨(g, d), hmem, by simp [genreRow, hpos]⟩

/-- Concrete check of the C4 theorem on the two-title genre sample. -/
theorem genre_trend_share_check :
    ∃ row ∈ (analyze_genre_trends sampleGenreRecords).1,
      row.genre_name = "Drama"
        ∧ row.audience_share
            = (row.total_audience : ℚ)
                / (((sampleGenreRecords.map MovieRecord.audiCnt).sum : Int) : ℚ)
                * 100 := by
  obtain ⟨row, hmem, hg⟩ := ((genre_trend_share sampleGenreRecords).2 "Drama").mpr
    ⟨⟨40, 2, [("G1", "20240101")]⟩, by decide, by decide⟩
  exact ⟨row, hmem, hg,
    ((genre_trend_share sampleGenreRecords).1 row hmem).1 (by decide)⟩

/-- C3 counterexample: on the two-title rating sample the single rating
group has totalAudience 3 over memberCount 2, and the Avg_Audience the
analysis stores and ranks is the truncated integer 1, not the
full-precision average 1.5, so the stored average differs from
totalAudience / memberCount. -/
theorem rating_avg_full_precision_cex :
    ∃ row ∈ (analyze_rating_impact sampleRatingRecords).1,
      (row.avg_audience : ℚ)
        ≠ (row.total_audience : ℚ) / (row.movie_count : ℚ) := by
  refine ⟨{ rating_name := "15",
            total_audience := 3,
            movie_count := 2,
            avg_audience := intTrunc (((3 : Int) : ℚ) / ((2 : Nat) : ℚ)),
            audience_share :=
              if 0 < marketTotal sampleRatingRecords then
                (((3 : Int) : ℚ) / ((marketTotal sampleRatingRecords : Int) : ℚ)) * 100
              else 0,
            movie_list :=
              (sortedByOpenDtDesc [("R1", "20240101"), ("R2", "20240102")]).map
                formatMovieEntry },
    ?_, ?_⟩
  · rw [mem_rating_rows]
    refine ⟨("15", ⟨3, 2, [("R1", "20240101"), ("R2", "20240102")]⟩), by decide, ?_⟩
    rw [ratingRow, if_pos (by decide : (0 : Nat) < 2)]
  · have h1 : intTrunc (((3 : Int) : ℚ) / ((2 : Nat) : ℚ)) = 1 := by
      have h2 : (((3 : Int) : ℚ) / ((2 : Nat) : ℚ)) = (3 : ℚ) / 2 := by norm_num
      rw [intTrunc, h2]
      rw [show ((3 : ℚ) / 2).num = 3 from by norm_num,
        show (((3 : ℚ) / 2).den : Int) = 2 from by norm_num]
      decide
    show (intTrunc (((3 : Int) : ℚ) / ((2 : Nat) : ℚ)) : ℚ)
        ≠ ((3 : Int) : ℚ) / ((2 : Nat) : ℚ)
    rw [h1]
    norm_num

/-- C3 (amended): each rating group's stored Avg_Audience equals the
integer truncation of totalAudience / memberCount (the float average is
truncated by int() before it is stored), and the descending ranking of
the rating-impact result is performed on that truncated integer, not on
the full-precision average. -/
theorem rating_avg_truncated_before_ranking (records : List MovieRecord) :
    (analyze_rating_impact records).1.map RatingRow.avg_audience
        = (analyze_rating_impact records).1.map
            (fun row => intTrunc ((row.total_audience : ℚ) / (row.movie_count : ℚ)))
    ∧ List.Pairwise (fun a b => b.avg_audience ≤ a.avg_audience)
        (analyze_rating_impact records).1 := by
  constructor
  · apply List.map_congr_left
    intro row hrow
    rw [mem_rating_rows] at hrow
    obtain ⟨e, hmem, hre⟩ := hrow
    rw [ratingRow] at hre
    split at hre
    next hguard =>
      injection hre with h2
      subst h2
      rfl
    next =>
      exact absurd hre (by simp)
  · exact pairwise_sortValuesDesc _ _

theorem age_fiber_filter (target : Date) (records : List MovieRecord) (g : String) :
    (ageContribs target records).filter (fun p => decide (p.1 = g))
      = (records.filter (fun movie => movieCohort target movie == some g)).map
          (fun movie => (g, movie)) := by
  induction records with
  | nil => rfl
  | cons r rs ih =>
    cases h : movieCohort target r with
    | none =>
      have hc : ageContribs target (r :: rs) = ageContribs target rs := by
        simp [ageContribs, List.filterMap_cons, h]
      rw [hc, List.filter_cons]
      simp [h, ih]
    | some x =>
      have hc : ageContribs target (r :: rs) = (x, r) :: ageContribs target rs := by
        simp [ageContribs, List.filterMap_cons, h]
      rw [hc, List.filter_cons, List.filter_cons]
      by_cases hx : x = g
      · subst hx
        simp [h, ih]
      · simp [h, hx, ih]

/-- C5: a title with strictly positive audience and a valid,
non-sentinel openDate is placed in exactly one cohort by the days
elapsed between openDate and the reference date: at most 7 days is the
new-release cohort, 8 through 28 the mid-term cohort, more than 28 the
veteran cohort; a title whose openDate equals the sentinel 99991231 or
fails to parse is classified into no cohort; and each cohort group
accumulates exactly the titles classified to it. -/
theorem movie_age_cohort_classification (target : Date)
    (records : List MovieRecord) :
    (∀ (movie : MovieRecord) (d : Date), 0 < movie.audiCnt →
        movie.openDt ≠ "99991231" → strptimeYmd movie.openDt = some d →
        (((toOrdinal target : Int) - (toOrdinal d : Int) ≤ 7 →
            movieCohort target movie = some "신작 (New Release)")
          ∧ (8 ≤ (toOrdinal target : Int) - (toOrdinal d : Int) →
              (toOrdinal target : Int) - (toOrdinal d : Int) ≤ 28 →
              movieCohort target movie = some "중기작 (Mid-Term)")
          ∧ (28 < (toOrdinal target : Int) - (toOrdinal d : Int) →
              movieCohort target movie = some "장기작 (Veteran)")))
    ∧ (∀ movie : MovieRecord,
        movie.openDt = "99991231" ∨ strptimeYmd movie.openDt = none →
        movieCohort target movie = none)
    ∧ (∀ g : String,
        (getGroup (ageData target records) g).movie_list
          = (records.filter
              (fun movie => movieCohort target movie == some g)).map
                (fun movie => (movie.movieNm, movie.openDt))) := by
  refine ⟨?_, ?_, ?_⟩
  · intro movie d hpos hsent hparse
    have hne : movie.openDt ≠ "" := by
      intro h0
      rw [h0, show strptimeYmd "" = none from rfl] at hparse
      exact Option.noConfusion hparse
    have hamb : ¬ (movie.audiCnt ≤ 0 ∨ movie.openDt = ""
        ∨ movie.openDt = "99991231") := by
      push_neg
      exact ⟨hpos, hne, hsent⟩
    refine ⟨?_, ?_, ?_⟩
    · intro hd
      rw [movieCohort, if_neg hamb]
      simp only [hparse]
      rw [if_pos hd]
    · intro h8 h28
      rw [movieCohort, if_neg hamb]
      simp only [hparse]
      rw [if_neg (by omega), if_pos h28]
    · intro h28
      rw [movieCohort, if_neg hamb]
      simp only [hparse]
      rw [if_neg (by omega), if_neg (by omega)]
  · intro movie hor
    rcases hor with hs | hp
    · rw [movieCohort, if_pos (Or.inr (Or.inr hs))]
    · by_cases hguard : movie.audiCnt ≤ 0 ∨ movie.openDt = ""
          ∨ movie.openDt = "99991231"
      · rw [movieCohort, if_pos hguard]
      · rw [movieCohort, if_neg hguard]
        simp only [hp]
  · intro g
    rw [ageData_eq, getGroup_groupFold,
      show getGroup ([] : GroupMap) g = GroupData.empty from rfl,
      age_foldl_list]
    simp only [GroupData.empty, List.nil_append]
    rw [age_fiber_filter, List.map_map]
    rfl

/-- Concrete check of the C5 theorem: a title opened 2024-01-01 viewed
from 2024-01-09 (8 days later) lands in the mid-term cohort. -/
theorem movie_age_cohort_classification_check :
    movieCohort ⟨2024, 1, 9⟩ sampleAgeMovie = some "중기작 (Mid-Term)" :=
  ((movie_age_cohort_classification ⟨2024, 1, 9⟩ []).1 sampleAgeMovie
      ⟨2024, 1, 1⟩ (by decide) (by decide) (by decide)).2.1
    (by decide) (by decide)

/-- C6: for every title with a non-empty daily-audience dict and
strictly positive weekly total, the daily-trend analysis produces a row
whose weekday sum ranges over day indices 0 through 4, whose weekend sum
ranges over indices 5 and 6, and whose dependency ratio is
weekendSum / totalWeeklyAudience * 100; the result is ordered descending
by that ratio; and on the spec example dict (weekday sum 50, weekend
sum 50, total 100) the ratio is exactly 50. -/
theorem daily_trend_weekend_split (records : List MovieRecord) :
    (∀ movie : MovieRecord, movie.dailyAudience ≠ [] → 0 < movie.audiCnt →
        dailyTrendRow movie = some
          { movie_name := movie.movieNm,
            total_weekly_audience := movie.audiCnt,
            weekend_audience :=
              dLookup movie.dailyAudience 5 + dLookup movie.dailyAudience 6,
            weekday_audience :=
              dLookup movie.dailyAudience 0 + dLookup movie.dailyAudience 1
                + dLookup movie.dailyAudience 2 + dLookup movie.dailyAudience 3
                + dLookup movie.dailyAudience 4,
            weekend_dependency :=
              ((dLookup movie.dailyAudience 5 + dLookup movie.dailyAudience 6 : Int) : ℚ)
                / (movie.audiCnt : ℚ) * 100,
            open_date := movie.openDt })
    ∧ List.Pairwise (fun a b => b.weekend_dependency ≤ a.weekend_dependency)
        (analyze_daily_trend records)
    ∧ (∀ movie : MovieRecord,
        movie.dailyAudience
            = [(0, 10), (1, 10), (2, 10), (3, 10), (4, 10), (5, 25), (6, 25)] →
        movie.audiCnt = 100 →
        ∃ row, dailyTrendRow movie = some row
          ∧ row.weekday_audience = 50 ∧ row.weekend_audience = 50
          ∧ row.weekend_dependency = 50) := by
  have hmain : ∀ movie : MovieRecord, movie.dailyAudience ≠ [] →
      0 < movie.audiCnt →
      dailyTrendRow movie = some
        { movie_name := movie.movieNm,
          total_weekly_audience := movie.audiCnt,
          weekend_audience :=
            dLookup movie.dailyAudience 5 + dLookup movie.dailyAudience 6,
          weekday_audience :=
            dLookup movie.dailyAudience 0 + dLookup movie.dailyAudience 1
              + dLookup movie.dailyAudience 2 + dLookup movie.dailyAudience 3
              + dLookup movie.dailyAudience 4,
          weekend_dependency :=
            ((dLookup movie.dailyAudience 5 + dLookup movie.dailyAudience 6 : Int) : ℚ)
              / (movie.audiCnt : ℚ) * 100,
          open_date := movie.openDt } := by
    intro movie hne hpos
    have hg : ¬ (movie.dailyAudience.isEmpty = true ∨ movie.audiCnt = 0) := by
      push_neg
      refine ⟨?_, by omega⟩
      simpa [List.isEmpty_iff] using hne
    rw [dailyTrendRow, if_neg hg]
    simp only [Option.some.injEq, DailyRow.mk.injEq]
    refine ⟨trivial, trivial, ?_, ?_, ?_, trivial⟩
    · simp [List.sum_cons, List.sum_nil]
    · simp [List.sum_cons, List.sum_nil]
      ring
    · rw [if_pos hpos]
      simp [List.sum_cons, List.sum_nil]
  refine ⟨hmain, pairwise_sortValuesDesc _ _, ?_⟩
  intro movie hd ha
  have hne : movie.dailyAudience ≠ [] := by
    rw [hd]
    simp
  have hpos : 0 < movie.audiCnt := by
    rw [ha]
    decide
  refine ⟨_, hmain movie hne hpos, ?_, ?_, ?_⟩
  · show dLookup movie.dailyAudience 0 + dLookup movie.dailyAudience 1
        + dLookup movie.dailyAudience 2 + dLookup movie.dailyAudience 3
        + dLookup movie.dailyAudience 4 = 50
    rw [hd]
    decide
  · show dLookup movie.dailyAudience 5 + dLookup movie.dailyAudience 6 = 50
    rw [hd]
    decide
  · show ((dLookup movie.dailyAudience 5 + dLookup movie.dailyAudience 6 : Int) : ℚ)
        / (movie.audiCnt : ℚ) * 100 = 50
    rw [hd, ha,
      show dLookup [(0, 10), (1, 10), (2, 10), (3, 10), (4, 10), (5, 25), (6, 25)] 5
          = 25 from rfl,
      show dLookup [(0, 10), (1, 10), (2, 10), (3, 10), (4, 10), (5, 25), (6, 25)] 6
          = 25 from rfl]
    norm_num

/-- Concrete check of the C6 theorem on the spec example dict. -/
theorem daily_trend_weekend_split_check :
    ∃ row, dailyTrendRow sampleDailyMovie = some row
      ∧ row.weekday_audience = 50 ∧ row.weekend_audience = 50
      ∧ row.weekend_dependency = 50 :=
  (daily_trend_weekend_split []).2.2 sampleDailyMovie rfl rfl

/-- C7 counterexample: an audience string with a thousands separator,
the comma-grouped shape the upstream feed documents, makes normalization
raise an uncaught ValueError instead of defaulting the field to 0. -/
theorem normalize_comma_audience_cex :
    normalize_record commaBox (some sampleDetail) [] targetD
      = Except.error PyError.valueError := rfl

/-- C8 counterexample: a detail payload whose ratings list is present
but empty makes normalization raise an uncaught IndexError rather than
fall back to the unrated sentinel. -/
theorem normalize_empty_audits_cex :
    normalize_record plainBox (some emptyAuditsDetail) [] targetD
      = Except.error PyError.indexError := rfl

/-- C9 counterexample: a company whose role string is the distributor
token in lower case is placed in neither company list, because the role
matching is case-sensitive substring containment. -/
theorem company_role_case_sensitivity_cex :
    normalize_record plainBox (some lowercaseRoleDetail) [] targetD
      = Except.ok (some recLowercaseRole)
    ∧ recLowercaseRole.companies = []
    ∧ recLowercaseRole.distributors = [] :=
  ⟨rfl, rfl, rfl⟩

/-- C7 (amended): the audience and rank-change fields are parsed by a
direct int() conversion with no separator stripping and no error
handling: a missing rankInten defaults to the integer 0 and a missing
audiAcc to the string "0"; a well-formed integer string parses to its
value; and a string int() rejects, such as the comma-grouped "1,234",
raises an uncaught ValueError that propagates out of normalization
instead of yielding the default 0. -/
theorem normalize_numeric_parsing :
    (∀ (box : BoxOfficeItem) (detail : Option DetailInfo)
        (daily : List (Nat × Int)) (dt : Date) (s : String),
        box.rankInten = some s → pyInt s = none →
        normalize_record box detail daily dt = Except.error PyError.valueError)
    ∧ (∀ (box : BoxOfficeItem) (info : DetailInfo) (daily : List (Nat × Int))
        (dt : Date), box.rankInten = none →
        pyInt (box.audiAcc.getD "0") = none →
        normalize_record box (some info) daily dt
          = Except.error PyError.valueError)
    ∧ (∀ (box : BoxOfficeItem) (info : DetailInfo) (daily : List (Nat × Int))
        (dt : Date) (n : Int), box.rankInten = none →
        pyInt (box.audiAcc.getD "0") = some n → info.audits ≠ some [] →
        ∃ rec : MovieRecord,
          normalize_record box (some info) daily dt = Except.ok (some rec)
            ∧ rec.audiCnt = n)
    ∧ pyInt "1,234" = none ∧ pyInt "1234" = some 1234 := by
  refine ⟨?_, ?_, ?_, by decide, by decide⟩
  · intro box detail daily dt s h1 h2
    obtain ⟨nm, acc, ri⟩ := box
    replace h1 : ri = some s := h1
    subst h1
    simp only [normalize_record]
    rw [h2]
    rfl
  · intro box info daily dt h1 h2
    obtain ⟨nm, acc, ri⟩ := box
    replace h1 : ri = none := h1
    subst h1
    simp only [normalize_record]
    rw [show pyInt ((BoxOfficeItem.mk nm acc none).audiAcc.getD "0") = none from h2]
    rfl
  · intro box info daily dt n h1 h2 h3
    obtain ⟨nm, acc, ri⟩ := box
    replace h1 : ri = none := h1
    subst h1
    simp only [normalize_record]
    rw [show pyInt ((BoxOfficeItem.mk nm acc none).audiAcc.getD "0") = some n from h2]
    cases ha : info.audits with
    | none => exact ⟨_, rfl, rfl⟩
    | some l =>
      cases l with
      | nil => exact absurd ha h3
      | cons a rest => exact ⟨_, rfl, rfl⟩

/-- Concrete check of the C7 theorem: a plain numeric audience string
parses to its value. -/
theorem normalize_numeric_parsing_check :
    ∃ rec : MovieRecord,
      normalize_record plainBox (some sampleDetail) [] targetD
          = Except.ok (some rec)
        ∧ rec.audiCnt = 1000 :=
  normalize_numeric_parsing.2.2.1 plainBox sampleDetail [] targetD 1000
    rfl (by decide) (by decide)

/-- C8 (amended): normalization takes watchGrade from the first audits
entry when the audits list is present and non-empty (defaulting to the
unrated sentinel when that entry lacks the grade key), and falls back to
the unrated sentinel when the audits key is absent; but an audits list
that is present and empty raises an uncaught IndexError, because the
default single-element list is only used when the key is missing. -/
theorem normalize_watch_grade_rules :
    ∀ (box : BoxOfficeItem) (info : DetailInfo) (daily : List (Nat × Int))
      (dt : Date) (n : Int), box.rankInten = none →
      pyInt (box.audiAcc.getD "0") = some n →
      ((info.audits = none →
          ∃ rec : MovieRecord,
            normalize_record box (some info) daily dt = Except.ok (some rec)
              ∧ rec.watchGrade = "Not Rated")
        ∧ (info.audits = some [] →
            normalize_record box (some info) daily dt
              = Except.error PyError.indexError)
        ∧ (∀ (a : AuditEntry) (rest : List AuditEntry),
            info.audits = some (a :: rest) →
            ∃ rec : MovieRecord,
              normalize_record box (some info) daily dt = Except.ok (some rec)
                ∧ rec.watchGrade = a.watchGradeNm.getD "Not Rated")) := by
  intro box info daily dt n h1 h2
  obtain ⟨nm, acc, ri⟩ := box
  replace h1 : ri = none := h1
  subst h1
  refine ⟨?_, ?_, ?_⟩
  · intro ha
    simp only [normalize_record]
    rw [show pyInt ((BoxOfficeItem.mk nm acc none).audiAcc.getD "0") = some n from h2,
      ha]
    exact ⟨_, rfl, rfl⟩
  · intro ha
    simp only [normalize_record]
    rw [show pyInt ((BoxOfficeItem.mk nm acc none).audiAcc.getD "0") = some n from h2,
      ha]
    rfl
  · intro a rest ha
    simp only [normalize_record]
    rw [show pyInt ((BoxOfficeItem.mk nm acc none).audiAcc.getD "0") = some n from h2,
      ha]
    exact ⟨_, rfl, rfl⟩

/-- Concrete check of the C8 theorem: an absent audits key produces the
unrated sentinel without an error. -/
theorem normalize_watch_grade_rules_check :
    ∃ rec : MovieRecord,
      normalize_record plainBox (some sampleDetail) [] targetD
          = Except.ok (some rec)
        ∧ rec.watchGrade = "Not Rated" :=
  (normalize_watch_grade_rules plainBox sampleDetail [] targetD 1000
    rfl (by decide)).1 rfl

theorem mem_filterMap_ite {α β : Type} (f : α → β) (p : α → Bool) (l : List α)
    (b : β) :
    (b ∈ l.filterMap fun c => if p c = true then some (f c) else none)
      ↔ ∃ c ∈ l, p c = true ∧ b = f c := by
  rw [List.mem_filterMap]
  constructor
  · rintro ⟨c, hc, hfc⟩
    by_cases hp : p c = true
    · rw [if_pos hp] at hfc
      exact ⟨c, hc, hp, (Option.some.inj hfc).symm⟩
    · rw [if_neg hp] at hfc
      exact absurd hfc (by simp)
  · rintro ⟨c, hc, hp, rfl⟩
    exact ⟨c, hc, by rw [if_pos hp]⟩

/-- C9 (amended): company role strings are matched by case-sensitive
substring containment of the tokens Producer, Distributor, 제작 and
배급 (not exact equality and not case-insensitively): a company tuple is
in the companies list exactly when its role contains one of the four
tokens, in the distributors list exactly when it contains Distributor or
배급 with that exact case, and a company whose role contains the
Distributor token is placed in both lists. -/
theorem company_role_substring_matching :
    ∀ (box : BoxOfficeItem) (info : DetailInfo) (daily : List (Nat × Int))
      (dt : Date) (n : Int) (rec : MovieRecord), box.rankInten = none →
      pyInt (box.audiAcc.getD "0") = some n →
      normalize_record box (some info) daily dt = Except.ok (some rec) →
      ((∀ tup : CompanyTuple,
          (tup ∈ rec.companies ↔ ∃ c ∈ info.companys.getD [],
              (strContains (c.companyPartNm.getD "") "Producer"
                || strContains (c.companyPartNm.getD "") "Distributor"
                || strContains (c.companyPartNm.getD "") "제작"
                || strContains (c.companyPartNm.getD "") "배급") = true
              ∧ tup = companyTupleOf box n (info.openDt.getD "99991231") c)
          ∧ (tup ∈ rec.distributors ↔ ∃ c ∈ info.companys.getD [],
              (strContains (c.companyPartNm.getD "") "Distributor"
                || strContains (c.companyPartNm.getD "") "배급") = true
              ∧ tup = companyTupleOf box n (info.openDt.getD "99991231") c))
        ∧ (∀ c ∈ info.companys.getD [],
            strContains (c.companyPartNm.getD "") "Distributor" = true →
            companyTupleOf box n (info.openDt.getD "99991231") c ∈ rec.companies
              ∧ companyTupleOf box n (info.openDt.getD "99991231") c
                  ∈ rec.distributors)) := by
  intro box info daily dt n rec h1 h2 hok
  obtain ⟨nm, acc, ri⟩ := box
  replace h1 : ri = none := h1
  subst h1
  simp only [normalize_record] at hok
  rw [show pyInt ((BoxOfficeItem.mk nm acc none).audiAcc.getD "0")
      = some n from h2] at hok
  have hfields : rec.companies = (info.companys.getD []).filterMap (fun c =>
        if (strContains (c.companyPartNm.getD "") "Producer"
            || strContains (c.companyPartNm.getD "") "Distributor"
            || strContains (c.companyPartNm.getD "") "제작"
            || strContains (c.companyPartNm.getD "") "배급") = true then
          some (companyTupleOf (BoxOfficeItem.mk nm acc none) n
            (info.openDt.getD "99991231") c)
        else none)
      ∧ rec.distributors = (info.companys.getD []).filterMap (fun c =>
        if (strContains (c.companyPartNm.getD "") "Distributor"
            || strContains (c.companyPartNm.getD "") "배급") = true then
          some (companyTupleOf (BoxOfficeItem.mk nm acc none) n
            (info.openDt.getD "99991231") c)
        else none) := by
    cases ha : info.audits with
    | none =>
      rw [ha] at hok
      simp only [pure_bind] at hok
      injection hok with h3
      injection h3 with h4
      subst h4
      exact ⟨rfl, rfl⟩
    | some l =>
      cases l with
      | nil =>
        rw [ha] at hok
        simp only [pure_bind] at hok
        exact Except.noConfusion hok
      | cons a rest =>
        rw [ha] at hok
        simp only [pure_bind] at hok
        injection hok with h3
        injection h3 with h4
        subst h4
        exact ⟨rfl, rfl⟩
  obtain ⟨hcomp, hdist⟩ := hfields
  constructor
  · intro tup
    constructor
    · rw [hcomp]
      exact mem_filterMap_ite
        (fun c => companyTupleOf (BoxOfficeItem.mk nm acc none) n
          (info.openDt.getD "99991231") c)
        (fun c => strContains (c.companyPartNm.getD "") "Producer"
          || strContains (c.companyPartNm.getD "") "Distributor"
          || strContains (c.companyPartNm.getD "") "제작"
          || strContains (c.companyPartNm.getD "") "배급")
        (info.companys.getD []) tup
    · rw [hdist]
      exact mem_filterMap_ite
        (fun c => companyTupleOf (BoxOfficeItem.mk nm acc none) n
          (info.openDt.getD "99991231") c)
        (fun c => strContains (c.companyPartNm.getD "") "Distributor"
          || strContains (c.companyPartNm.getD "") "배급")
        (info.companys.getD []) tup
  · intro c hc hD
    constructor
    · rw [hcomp]
      refine List.mem_filterMap.mpr ⟨c, hc, ?_⟩
      rw [if_pos (by simp [hD])]
    · rw [hdist]
      refine List.mem_filterMap.mpr ⟨c, hc, ?_⟩
      rw [if_pos (by simp [hD])]

/-- Concrete check of the C9 theorem: a company whose role string is
exactly Distributor lands in both company lists. -/
theorem company_role_substring_matching_check :
    (⟨"ABC", "T", 1000, "Distributor", "20240101"⟩ : CompanyTuple)
        ∈ recProperRole.companies
    ∧ (⟨"ABC", "T", 1000, "Distributor", "20240101"⟩ : CompanyTuple)
        ∈ recProperRole.distributors :=
  (company_role_substring_matching plainBox properRoleDetail [] targetD 1000
      recProperRole rfl (by decide) rfl).2
    { companyNm := some "ABC", companyPartNm := some "Distributor" }
    (by decide) (by decide)

end KMovie
